import Mathlib

/-!
Verification of the bond-directory ingestion core against its specification.

The definitions below are a shallow embedding of the JavaScript sources:

* `bond-directory/lib/ratingNormalizer.js` — grade canonicalization and ranks
* the NSDL transformers file — `parseDate`, `pick`, the enrichment extractors
* `circuitBreaker.js` — the tri-state circuit breaker
* `bond-directory/lib/indiaBondInfo/nsdlClient.js` `_request` /
  `bond-directory/lib/indiaBondInfo/client.js` `_requestWithRetry` — retry loops

JavaScript strings are modelled as Lean `String` (the data is ASCII), `null`
and `undefined` as `Option.none`, machine time (`Date.now()`) as `Nat`
milliseconds passed explicitly, and thrown errors as explicit result
constructors.
-/

-- ─── Small JavaScript string helpers ─────────────────────────────────────────

/-- Whitespace class used by the JS `trim` and the `\s` regex class
(ASCII subset; the sources only see ASCII input). -/
def isJsWs (c : Char) : Bool :=
  c = ' ' || c = '\t' || c = '\n' || c = '\r' || c = '\x0b' || c = '\x0c'

/-- Drop elements from the end of a list while the predicate holds. -/
def dropEndWhile (p : Char → Bool) (l : List Char) : List Char :=
  (l.reverse.dropWhile p).reverse

/-- Models JS `String.prototype.trim()` on ASCII data. -/
def jsTrim (s : String) : String :=
  ⟨dropEndWhile isJsWs (s.toList.dropWhile isJsWs)⟩

/-- Models JS `String.prototype.toUpperCase()` on ASCII data. -/
def jsToUpper (s : String) : String :=
  ⟨s.toList.map Char.toUpper⟩

/-- The text strictly before the first occurrence of `c` (all of `s` when `c`
is absent). Models both `s.split(c)[0]` and the `indexOf` / `slice` pair in
`normalizeRating`. -/
def takeBeforeChar (c : Char) (s : String) : String :=
  ⟨s.toList.takeWhile (fun x => x ≠ c)⟩

/-- Models the regex replace `/\*+$/ → empty` (strip trailing asterisks). -/
def dropTrailingStars (s : String) : String :=
  ⟨dropEndWhile (fun c => c = '*') s.toList⟩

/-- Models the regex replace `/\s+/g → empty` (delete all whitespace). -/
def removeWs (s : String) : String :=
  ⟨s.toList.filter (fun c => !isJsWs c)⟩

/-- Models the regex replace `/[()]/g → empty` (delete all parentheses). -/
def removeParens (s : String) : String :=
  ⟨s.toList.filter (fun c => c ≠ '(' && c ≠ ')')⟩

/-- List-based `startsWith` (kernel-reducible, unlike the byte-position
implementation in core). -/
def strStartsWith (s pre : String) : Bool :=
  pre.toList.isPrefixOf s.toList

/-- List-based `endsWith`. -/
def strEndsWith (s suf : String) : Bool :=
  suf.toList.reverse.isPrefixOf s.toList.reverse

/-- List-based `drop` (drop the first `n` characters). -/
def strDrop (s : String) (n : Nat) : String :=
  ⟨s.toList.drop n⟩

/-- List-based `dropRight` (drop the last `n` characters). -/
def strDropRight (s : String) (n : Nat) : String :=
  ⟨(s.toList.reverse.drop n).reverse⟩

/-- Boolean infix test: does `hay` contain `needle` as a contiguous
substring? Models JS `String.prototype.includes`. -/
def listContainsSub (needle : List Char) : List Char → Bool
  | [] => needle.isEmpty
  | c :: t => needle.isPrefixOf (c :: t) || listContainsSub needle t

/-- Models JS `s.includes(sub)` on ASCII data. -/
def jsIncludes (s sub : String) : Bool :=
  listContainsSub sub.toList s.toList

-- ─── ratingNormalizer.js ─────────────────────────────────────────────────────

/-- `KNOWN_GRADES` from ratingNormalizer.js, in source order (sorted
longest-first so greedy matching picks AA+ before AA before A). -/
def KNOWN_GRADES : List String :=
  ["AAA", "AA+", "AA-", "AA",
   "A+", "A-", "A",
   "BBB+", "BBB-", "BBB",
   "BB+", "BB-", "BB",
   "B+", "B-", "B",
   "C+", "C-", "C",
   "D"]

/-- `NOISE_RESULTS` from ratingNormalizer.js. -/
def NOISE_RESULTS : List String :=
  ["WITHDRAWN", "ISSUERNOTCOOPERATING", "CISSUERNOTCOOPERATING",
   "PROVISIONALCAREWITHDRAWN", "INDWITHDRAWN"]

/-- `GRADE_RANK` from ratingNormalizer.js (lower = better quality). -/
def GRADE_RANK : List (String × Nat) :=
  [("AAA", 1), ("AA+", 2), ("AA", 3), ("AA-", 4),
   ("A+", 5), ("A", 6), ("A-", 7),
   ("BBB+", 8), ("BBB", 9), ("BBB-", 10),
   ("BB+", 11), ("BB", 12), ("BB-", 13),
   ("B+", 14), ("B", 15), ("B-", 16),
   ("C+", 17), ("C", 18), ("C-", 19),
   ("D", 20),
   ("PP-MLD", 80),
   ("WITHDRAWN", 90),
   ("Unrated", 99)]

/-- Length matched at the start of `l` by the agency alternation of
`AGENCY_PREFIXES_RE`, following the JS regex leftmost-alternative rule.
The input has been upper-cased and stripped of whitespace by the time this
regex runs, so the `INDIA\s+RATINGS` alternative can never match, and the
`CRISILBBL` alternative is shadowed by the earlier `CRISIL` alternative.
`INDIARATINGS?` greedily prefers the form with the trailing S. -/
def agencyMatchLen (l : List Char) : Option Nat :=
  if "CRISIL".toList.isPrefixOf l then some 6
  else if "ICRA".toList.isPrefixOf l then some 4
  else if "CARE".toList.isPrefixOf l then some 4
  else if "IVR".toList.isPrefixOf l then some 3
  else if "BWR".toList.isPrefixOf l then some 3
  else if "ACUITE".toList.isPrefixOf l then some 6
  else if "SMERA".toList.isPrefixOf l then some 5
  else if "BRICKWORK".toList.isPrefixOf l then some 9
  else if "INDIARATINGS".toList.isPrefixOf l then some 12
  else if "INDIARATING".toList.isPrefixOf l then some 11
  else if "INFOMERICS".toList.isPrefixOf l then some 10
  else none

/-- Models `s.replace(AGENCY_PREFIXES_RE, '')`: the regex is anchored at the
start, tries the optional `PROVISIONAL` qualifier first (with backtracking to
the empty qualifier), then one agency alternative. -/
def dropAgencyName (s : String) : String :=
  let l := s.toList
  let withProv :=
    if "PROVISIONAL".toList.isPrefixOf l then
      (agencyMatchLen (l.drop 11)).map (fun n => n + 11)
    else none
  match withProv with
  | some n => ⟨l.drop n⟩
  | none =>
    match agencyMatchLen l with
    | some n => ⟨l.drop n⟩
    | none => s

/-- Models `s.replace(IND_PREFIX_RE, '')` — the `^(IND|PP-MLD)` regex.
(The `PP-MLD` alternative is unreachable in `normalizeRating` because the
function returns earlier whenever the string contains `PP-MLD`.) -/
def dropIndMarker (s : String) : String :=
  if strStartsWith s "IND" then strDrop s 3
  else if strStartsWith s "PP-MLD" then strDrop s 6
  else s

/-- The suffix alternatives of `SUFFIXES_RE`. -/
def SUFFIX_TOKENS : List String :=
  ["CE", "SO", "RSO", "STABLE", "POSITIVE", "NEGATIVE", "WATCH",
   "OUTLOOK", "SUSPENSION", "REAFFIRMED"]

/-- Models one `s.replace(SUFFIXES_RE, '')`: the regex is end-anchored, and
the JS engine picks the leftmost starting match, which is the longest
alternative that is a suffix of `s`. -/
def dropOneSuffixToken (s : String) : String :=
  let best := (SUFFIX_TOKENS.filter (fun t => strEndsWith s t)).foldl
    (fun acc t => if acc.toList.length < t.toList.length then t else acc) ""
  if best.toList.isEmpty then s else strDropRight s best.toList.length

/-- The suffix-stripping loop of `normalizeRating` (at most 3 passes,
stopping early once a pass changes nothing). -/
def dropSuffixLoop : Nat → String → String
  | 0, s => s
  | n + 1, s =>
    let s2 := jsTrim (dropOneSuffixToken s)
    if s2 = s then s else dropSuffixLoop n s2

/-- `normalizeRating` from ratingNormalizer.js: canonicalize a raw credit
rating string to a grade, `Option.none` standing for the JS `null`. -/
def normalizeRating (raw : String) : Option String :=
  if jsTrim raw = "" then none
  else
    let s0 := jsToUpper (jsTrim (takeBeforeChar ';' raw))
    let s1 := takeBeforeChar '/' s0
    let s2 := jsTrim (removeParens (removeWs (dropTrailingStars s1)))
    if NOISE_RESULTS.contains s2 then some "WITHDRAWN"
    else
      let s3 := jsTrim (dropAgencyName s2)
      let s4 := if strStartsWith s3 "PROVISIONAL" then jsTrim (strDrop s3 11) else s3
      if jsIncludes s4 "PP-MLD" then some "PP-MLD"
      else
        let s5 := jsTrim (dropIndMarker s4)
        let s6 := dropSuffixLoop 3 s5
        match KNOWN_GRADES.find? (fun g => s6 = g) with
        | some g => some g
        | none =>
          match KNOWN_GRADES.find? (fun g => strStartsWith s6 g) with
          | some g => some g
          | none => if s6 = "" then none else some s6

/-- `getRatingRank` from ratingNormalizer.js: `GRADE_RANK[grade] ?? 99`,
restricted to own-property lookups — exact on the rank-table keys the
ladder theorems use. A `none` grade models the JS `null` argument (the
lookup of the key "null" misses and the nullish coalescing yields 99).
The full JS property-get semantics, including the `Object.prototype`
chain, is `getRatingRankFull` below; the two agree everywhere except on
the twelve inherited property names. -/
def getRatingRank (grade : Option String) : Nat :=
  match grade with
  | some g => (GRADE_RANK.lookup g).getD 99
  | none => 99

/-- The string-keyed properties every plain object literal inherits from
`Object.prototype`. Reading one of these names on `GRADE_RANK` yields the
inherited function (for `__proto__`, the prototype object itself) — a
value that is neither null nor undefined, so `?? 99` does not fire. -/
def OBJECT_PROTOTYPE_KEYS : List String :=
  ["constructor", "hasOwnProperty", "isPrototypeOf", "propertyIsEnumerable",
   "toLocaleString", "toString", "valueOf", "__proto__",
   "__defineGetter__", "__defineSetter__", "__lookupGetter__", "__lookupSetter__"]

/-- What `GRADE_RANK[grade] ?? 99` can evaluate to: a number, or a
function/object inherited from the prototype chain (tagged by the
property name that was read). -/
inductive RankResult where
  | num (n : Nat) : RankResult
  | inherited (key : String) : RankResult
deriving DecidableEq

/-- `getRatingRank` with the full JS property-get semantics:
`GRADE_RANK[grade]` finds own properties first, then consults the
`Object.prototype` chain; only a miss on both (undefined) lets `?? 99`
supply the default. The `null` argument reads the key "null", which is
neither an own nor an inherited property. -/
def getRatingRankFull (grade : Option String) : RankResult :=
  match grade with
  | none => .num 99
  | some g =>
    match GRADE_RANK.lookup g with
    | some n => .num n
    | none => if OBJECT_PROTOTYPE_KEYS.contains g then .inherited g else .num 99

/-- The canonical grade ladder in best-to-worst order, as enumerated by the
claim (AAA, AA+, AA, AA-, A+, A, A-, BBB+, ..., D, WITHDRAWN). -/
def canonicalLadder : List String :=
  ["AAA", "AA+", "AA", "AA-",
   "A+", "A", "A-",
   "BBB+", "BBB", "BBB-",
   "BB+", "BB", "BB-",
   "B+", "B", "B-",
   "C+", "C", "C-",
   "D", "WITHDRAWN"]

-- ─── parseDate (NSDL transformers file); circuit breaker (circuitBreaker.js) 

/-- The value `parseDate` hands back for a string argument: the JS `null`,
an Invalid Date object (a `Date` whose time value is `NaN`), or a valid
`Date` at midnight UTC of a calendar day. -/
inductive JSDateVal where
  | nullV : JSDateVal
  | invalidV : JSDateVal
  | dateV (y m d : Nat) : JSDateVal
deriving DecidableEq

/-- Gregorian leap-year rule (as used by the JS `Date`). -/
def isLeapYear (y : Nat) : Bool :=
  (y % 4 = 0 && y % 100 ≠ 0) || y % 400 = 0

/-- Number of days in month `m` (1..12) of year `y`. -/
def daysInMonth (y m : Nat) : Nat :=
  if m = 2 then (if isLeapYear y then 29 else 28)
  else if m = 4 || m = 6 || m = 9 || m = 11 then 30
  else if 1 ≤ m && m ≤ 12 then 31
  else 0

/-- Split a character list into its maximal leading digit run and the rest. -/
def splitDigits (l : List Char) : List Char × List Char :=
  (l.takeWhile Char.isDigit, l.dropWhile Char.isDigit)

/-- Numeric value of a digit run. -/
def digitsToNat (l : List Char) : Nat :=
  l.foldl (fun a c => a * 10 + (c.toNat - 48)) 0

/-- Models the anchored day-first regex match of `parseDate` (one or two
digits, a dash-or-slash separator, one or two digits, a separator, exactly
four digits, end of string), yielding the captured (day, month, year)
numbers. Because the quantifiers are bounded and each digit group is
followed by a non-digit, the regex matches exactly when the string
tokenizes into three maximal digit runs of lengths 1-2, 1-2 and exactly 4,
separated by single dash or slash characters. -/
def matchDMY (s : String) : Option (Nat × Nat × Nat) :=
  let (dRun, r1) := splitDigits s.toList
  if dRun.length = 0 || 2 < dRun.length then none
  else
    match r1 with
    | c1 :: r2 =>
      if c1 ≠ '-' && c1 ≠ '/' then none
      else
        let (mRun, r3) := splitDigits r2
        if mRun.length = 0 || 2 < mRun.length then none
        else
          match r3 with
          | c2 :: r4 =>
            if c2 ≠ '-' && c2 ≠ '/' then none
            else
              let (yRun, r5) := splitDigits r4
              if yRun.length = 4 && r5.isEmpty then
                some (digitsToNat dRun, digitsToNat mRun, digitsToNat yRun)
              else none
          | [] => none
    | [] => none

/-- Does (y, m, d) name a real calendar day? -/
def validCalendarDate (y m d : Nat) : Bool :=
  1 ≤ m && m ≤ 12 && 1 ≤ d && d ≤ daysInMonth y m

/-- Models the `new Date(y-m-dT00:00:00.000Z)` constructor call in the
day-first branch of `parseDate` (day and month zero-padded to two digits).
V8 yields a valid `Date` exactly when the components form a real calendar
date, and an Invalid Date otherwise; the branch returns the object either
way, without an `isNaN` guard. -/
def jsDateFromYMD (y m d : Nat) : JSDateVal :=
  if validCalendarDate y m d then .dateV y m d
  else .invalidV

/-- Models the fallback `new Date(str)` call of `parseDate`, restricted to
the normative ECMAScript Date Time String Format date-only productions
`YYYY`, `YYYY-MM` and `YYYY-MM-DD` (the code paths the spec describes);
anything else is modelled as an Invalid Date. -/
def jsDateParse (s : String) : JSDateVal :=
  let (yRun, r1) := splitDigits s.toList
  if yRun.length ≠ 4 then .invalidV
  else
    let y := digitsToNat yRun
    match r1 with
    | [] => .dateV y 1 1
    | c1 :: r2 =>
      if c1 ≠ '-' then .invalidV
      else
        let (mRun, r3) := splitDigits r2
        if mRun.length ≠ 2 then .invalidV
        else
          let m := digitsToNat mRun
          if m = 0 || 12 < m then .invalidV
          else
            match r3 with
            | [] => .dateV y m 1
            | c2 :: r4 =>
              if c2 ≠ '-' then .invalidV
              else
                let (dRun, r5) := splitDigits r4
                let d := digitsToNat dRun
                if dRun.length = 2 && r5.isEmpty && 1 ≤ d && d ≤ daysInMonth y m then
                  .dateV y m d
                else .invalidV

/-- `parseDate` from the NSDL transformers file, for string arguments.
A falsy argument (only the empty string, among strings) and an
all-whitespace argument return `null`; a string matching the day-first
pattern is converted through the ISO constructor without an `isNaN` guard;
any other string goes through `new Date(str)` followed by the `isNaN`
guard, which maps an Invalid Date to `null`. -/
def parseDate (s : String) : JSDateVal :=
  if s = "" then .nullV
  else
    let str := jsTrim s
    if str = "" then .nullV
    else
      match matchDMY str with
      | some (d, m, y) => jsDateFromYMD y m d
      | none =>
        match jsDateParse str with
        | .invalidV => .nullV
        | v => v

example : parseDate "05/03/2021" = .dateV 2021 3 5 := by decide

example : parseDate "2021-03-05" = .dateV 2021 3 5 := by decide

example : parseDate "  " = .nullV := by decide

example : parseDate "31-02-2021" = .invalidV := by decide

/-- The `STATES` constant of circuitBreaker.js. -/
inductive CBState where
  | CLOSED : CBState
  | OPEN : CBState
  | HALF_OPEN : CBState
deriving DecidableEq

/-- The mutable fields of a `CircuitBreaker` instance, together with its
configuration. `Date.now()` values are modelled as `Nat` milliseconds. -/
structure CircuitBreaker where
  failureThreshold : Nat
  resetTimeout : Nat
  state : CBState
  failures : Nat
  lastFailureTime : Option Nat
  nextRetryTime : Option Nat
  successCount : Nat
  totalRequests : Nat
deriving DecidableEq

/-- The constructor: `options.failureThreshold || 5` and
`options.resetTimeout || 60000` (a zero option is falsy in JS and falls
back to the default, so the effective threshold is always positive). The
unused `monitorWindow` option is omitted. -/
def mkCircuitBreaker (failureThreshold resetTimeout : Nat) : CircuitBreaker :=
  { failureThreshold := if failureThreshold = 0 then 5 else failureThreshold
    resetTimeout := if resetTimeout = 0 then 60000 else resetTimeout
    state := .CLOSED
    failures := 0
    lastFailureTime := none
    nextRetryTime := none
    successCount := 0
    totalRequests := 0 }

/-- `_onSuccess`: bump the success counter; a HALF_OPEN trial success closes
the circuit and clears the failure counter. -/
def cbOnSuccess (cb : CircuitBreaker) : CircuitBreaker :=
  let cb1 := { cb with successCount := cb.successCount + 1 }
  if cb1.state = .HALF_OPEN then { cb1 with state := .CLOSED, failures := 0 }
  else cb1

/-- `_onFailure` at time `now`: bump the failure counter and record the
time; a HALF_OPEN failure re-opens with a fresh retry time; a CLOSED
breaker whose (incremented) counter has reached the threshold trips OPEN. -/
def cbOnFailure (cb : CircuitBreaker) (now : Nat) : CircuitBreaker :=
  let cb1 := { cb with failures := cb.failures + 1, lastFailureTime := some now }
  if cb1.state = .HALF_OPEN then
    { cb1 with state := .OPEN, nextRetryTime := some (now + cb1.resetTimeout) }
  else if cb1.state = .CLOSED then
    if cb1.failureThreshold ≤ cb1.failures then
      { cb1 with state := .OPEN, nextRetryTime := some (now + cb1.resetTimeout) }
    else cb1
  else cb1

/-- The admission phase at the top of `execute`: count the request; an OPEN
breaker admits the call (transitioning to HALF_OPEN first) only when
`Date.now() >= nextRetryTime`, and otherwise rejects it. A `null`
`nextRetryTime` coerces to 0 under the JS comparison, hence `getD 0`.
Returns the breaker after the phase and whether the call was admitted. -/
def cbAdmit (cb : CircuitBreaker) (now : Nat) : CircuitBreaker × Bool :=
  let cb1 := { cb with totalRequests := cb.totalRequests + 1 }
  if cb1.state = .OPEN then
    if cb1.nextRetryTime.getD 0 ≤ now then ({ cb1 with state := .HALF_OPEN }, true)
    else (cb1, false)
  else (cb1, true)

/-- How one `execute(fn, fallback)` call ends: rejected while open (the
thrown `CircuitBreakerError`, distinguishable from operation errors), the
fallback value, the operation result, or the operation error rethrown. -/
inductive CBExecResult where
  | rejectedOpen : CBExecResult
  | fallbackValue : CBExecResult
  | opSuccess : CBExecResult
  | opError : CBExecResult
deriving DecidableEq

/-- `execute`, with the operation modelled by its outcome `opSucceeds` and
the optional fallback by `hasFallback`. `tAdmit` is the `Date.now()` of the
admission check; `tDone` is the `Date.now()` at which a failing operation
settles (used by `_onFailure`). -/
def cbExecute (cb : CircuitBreaker) (tAdmit tDone : Nat)
    (opSucceeds hasFallback : Bool) : CBExecResult × CircuitBreaker :=
  let p := cbAdmit cb tAdmit
  if p.2 then
    if opSucceeds then (.opSuccess, cbOnSuccess p.1)
    else
      let cb2 := cbOnFailure p.1 tDone
      if hasFallback ∧ cb2.state = .OPEN then (.fallbackValue, cb2)
      else (.opError, cb2)
  else
    if hasFallback then (.fallbackValue, p.1) else (.rejectedOpen, p.1)

/-- `reset()`: back to CLOSED with cleared counters and times (the success
and total counters are kept, as in the source). -/
def cbReset (cb : CircuitBreaker) : CircuitBreaker :=
  { cb with state := .CLOSED, failures := 0,
            lastFailureTime := none, nextRetryTime := none }

/-- One call through the breaker: the two observed clock values, the
operation outcome, and whether a fallback was supplied. -/
structure CBCall where
  tAdmit : Nat
  tDone : Nat
  opSucceeds : Bool
  hasFallback : Bool
deriving DecidableEq

/-- Run a sequence of calls through the breaker, left to right. -/
def runCalls (cb : CircuitBreaker) : List CBCall → CircuitBreaker
  | [] => cb
  | c :: rest => runCalls (cbExecute cb c.tAdmit c.tDone c.opSucceeds c.hasFallback).2 rest

/-- Number of failing calls in a sequence. -/
def countFails (L : List CBCall) : Nat :=
  (L.filter (fun c => !c.opSucceeds)).length

-- ─── Sample breaker data; resilient request loops (nsdlClient.js, client.js) 

/-- A concrete failing call (no fallback, clock at 0). -/
def sampleFailCall : CBCall :=
  { tAdmit := 0, tDone := 0, opSucceeds := false, hasFallback := false }

/-- A concrete succeeding call (no fallback, clock at 0). -/
def sampleOkCall : CBCall :=
  { tAdmit := 0, tDone := 0, opSucceeds := true, hasFallback := false }

/-- A concrete breaker sitting OPEN with retry scheduled at time 1005. -/
def sampleOpenCB : CircuitBreaker :=
  { failureThreshold := 2, resetTimeout := 1000, state := .OPEN, failures := 2,
    lastFailureTime := some 5, nextRetryTime := some 1005,
    successCount := 0, totalRequests := 2 }

/-- The same breaker in its HALF_OPEN trial state. -/
def sampleHalfOpenCB : CircuitBreaker :=
  { sampleOpenCB with state := .HALF_OPEN }

/-- How one physical HTTP attempt can end, as distinguished by the retry
loops: success; a 404 status; a 403 status or a 200 response whose body is
an HTML error page (the session-expired shape, handled identically by the
code); any other transport or server error. -/
inductive AttemptOutcome where
  | ok : AttemptOutcome
  | notFound : AttemptOutcome
  | forbidden : AttemptOutcome
  | otherErr : AttemptOutcome
deriving DecidableEq

/-- How the whole operation ends: data returned; the empty result returned
for a 404; the thrown `NSDL_SESSION_EXPIRED` error after a failed cookie
refresh; the last per-attempt error rethrown after the budget is spent. -/
inductive ReqOutcome where
  | success : ReqOutcome
  | emptyResult : ReqOutcome
  | sessionExpired : ReqOutcome
  | thrown (e : AttemptOutcome) : ReqOutcome
deriving DecidableEq

/-- The attempt loop of `NSDLBondClient._request` (the Excel variant
`_requestExcel` has a line-for-line identical retry/refresh structure and
is covered by the same model). `attempts i` is the outcome of the physical
attempt with loop index `i`; `refreshOk k` tells whether the k-th
`refreshCookies()` call of this operation succeeds. Arguments: remaining
loop iterations, current loop index `i`, refreshes attempted so far `k`,
and `lastError`. On a 403/HTML outcome the code refreshes and, if that
succeeds, hits `continue`, which runs the `attempt++` update — so control
moves on to the NEXT loop index; a failed refresh throws
`NSDL_SESSION_EXPIRED` at once. Other errors back off and retry; a spent
budget rethrows `lastError`. Returns (result, attempts issued, refreshes
attempted). -/
def requestGo (attempts : Nat → AttemptOutcome) (refreshOk : Nat → Bool) :
    Nat → Nat → Nat → AttemptOutcome → ReqOutcome × Nat × Nat
  | 0, i, k, last => (.thrown last, i, k)
  | r + 1, i, k, _ =>
    match attempts i with
    | .ok => (.success, i + 1, k)
    | .notFound => (.emptyResult, i + 1, k)
    | .forbidden =>
      if refreshOk k then requestGo attempts refreshOk r (i + 1) (k + 1) .forbidden
      else (.sessionExpired, i + 1, k + 1)
    | .otherErr => requestGo attempts refreshOk r (i + 1) k .otherErr

/-- `NSDLBondClient._request`: the loop runs `maxRetries + 1` iterations
(`attempt` from 0 to `maxRetries` inclusive). The `lastError` slot starts
morally undefined; it is initialized with `otherErr`, unreachable because
the loop body always runs at least once. -/
def runRequest (maxRetries : Nat) (attempts : Nat → AttemptOutcome)
    (refreshOk : Nat → Bool) : ReqOutcome × Nat × Nat :=
  requestGo attempts refreshOk (maxRetries + 1) 0 0 .otherErr

/-- How `IndiaBondInfoClient._requestWithRetry` ends: data; the `null`
returned for a 404 (the callers coerce it to an empty list); the 403 or
final error rethrown. -/
inductive RwrOutcome where
  | success : RwrOutcome
  | nullResult : RwrOutcome
  | thrown (e : AttemptOutcome) : RwrOutcome
deriving DecidableEq

/-- The attempt loop of `IndiaBondInfoClient._requestWithRetry`: a 404
returns `null` immediately; a 403 rethrows immediately (no cookie refresh
in this client); other errors back off and retry until the budget is
spent. Returns (result, attempts issued). -/
def requestWithRetryGo (attempts : Nat → AttemptOutcome) :
    Nat → Nat → AttemptOutcome → RwrOutcome × Nat
  | 0, i, last => (.thrown last, i)
  | r + 1, i, _ =>
    match attempts i with
    | .ok => (.success, i + 1)
    | .notFound => (.nullResult, i + 1)
    | .forbidden => (.thrown .forbidden, i + 1)
    | .otherErr => requestWithRetryGo attempts r (i + 1) .otherErr

/-- `IndiaBondInfoClient._requestWithRetry` over its full attempt budget. -/
def runRequestWithRetry (maxRetries : Nat) (attempts : Nat → AttemptOutcome) :
    RwrOutcome × Nat :=
  requestWithRetryGo attempts (maxRetries + 1) 0 .otherErr

-- ─── Enrichment extractors (NSDL transformers file); spec-modelled merge ────

/-- A raw NSDL record: a mapping from source-dependent field names to
values. Values are modelled as strings or `null` (the shapes the
spreadsheet-to-JSON step produces for the fields these extractors read). -/
abbrev RawRecord : Type := List (String × Option String)

/-- `pick(raw, ...keys)` from the transformers file: the first key whose
value is neither undefined nor null nor the empty string wins; otherwise
`null`. An absent key models `undefined`. -/
def pick (raw : RawRecord) : List String → Option String
  | [] => none
  | key :: rest =>
    match List.lookup key raw with
    | some (some v) => if v = "" then pick raw rest else some v
    | _ => pick raw rest

/-- The transformers file defines its own `normalizeRating` (distinct from
the one in ratingNormalizer.js; the suffix T tells them apart here):
`String(raw || '').replace(ws, '').replace(parens, '').toUpperCase().trim()
|| null`. -/
def normalizeRatingT (v : Option String) : Option String :=
  let s := jsTrim (jsToUpper (removeParens (removeWs (v.getD ""))))
  if s = "" then none else some s

/-- A finite JS number in scaled-decimal form: the value is
`mantissa / 10 ^ scale`. (Kept unnormalized so that equality is structural
and kernel-decidable; only presence or absence of the number matters to
the merge.) -/
structure JsNumber where
  mantissa : Int
  scale : Nat
deriving DecidableEq

/-- `parseFloat` on a string, without the exponent notation the extracted
fields never carry: skip leading whitespace, optional sign, digits,
optional decimal point and digits; NaN (modelled `none`) unless at least
one digit was read. Parsing stops at the first unusable character. -/
def jsParseFloat (s : String) : Option JsNumber :=
  let l := s.toList.dropWhile isJsWs
  let sign : Int := if l.head? = some '-' then -1 else 1
  let l1 := if l.head? = some '-' || l.head? = some '+' then l.drop 1 else l
  let ip := (splitDigits l1).1
  let l2 := (splitDigits l1).2
  let fp := if l2.head? = some '.' then (splitDigits (l2.drop 1)).1 else []
  if ip.isEmpty && fp.isEmpty then none
  else some
    { mantissa := sign * ((digitsToNat ip * 10 ^ fp.length + digitsToNat fp : Nat) : Int)
      scale := fp.length }

/-- One entry of an enrichment map: the partial field set a secondary
endpoint contributes for one record. Each extractor fills only its own
fields; the rest stay `none`. -/
structure EnrichEntry where
  creditRating : Option String
  ratingAgency : Option String
  interestRateCategory : Option String
  couponRate : Option JsNumber
deriving DecidableEq

/-- An enrichment map keyed by ISIN, in insertion order. -/
abbrev EnrichMap : Type := List (String × EnrichEntry)

/-- `Map.prototype.set`: overwrite the value of an existing key in place,
or append a new binding. -/
def mapSet (m : EnrichMap) (k : String) (v : EnrichEntry) : EnrichMap :=
  if (List.lookup k m).isSome then
    m.map (fun p => if p.1 = k then (k, v) else p)
  else m ++ [(k, v)]

/-- The entry `extractCreditRatingMap` derives from one raw record: the
upper-cased ISIN must be non-empty and the normalized rating non-null
(`if (isin && rating)`); the agency may well be null. -/
def creditRatingEntry (record : RawRecord) : Option (String × EnrichEntry) :=
  let isin := jsToUpper ((pick record ["isin", "ISIN"]).getD "")
  if isin = "" then none
  else
    match normalizeRatingT (pick record ["creditRating", "rating", "credit_rating"]) with
    | some rv => some (isin,
        { creditRating := some rv,
          ratingAgency := pick record ["ratingAgency", "rating_agency", "agencyName"],
          interestRateCategory := none, couponRate := none })
    | none => none

/-- The entry `extractInterestRateMap` derives from one raw record: only a
non-empty ISIN is required; the bucket may be null, and the rate is
`parseFloat(pick(...) || 0)` with NaN mapped to `undefined`. -/
def interestRateEntry (record : RawRecord) : Option (String × EnrichEntry) :=
  let isin := jsToUpper ((pick record ["isin", "ISIN"]).getD "")
  if isin = "" then none
  else some (isin,
    { creditRating := none, ratingAgency := none,
      interestRateCategory :=
        pick record ["interestRateRange", "rateRange", "bucket", "rate_range", "category"],
      couponRate :=
        match pick record ["interestRate", "couponRate", "rate"] with
        | none => some { mantissa := 0, scale := 0 }
        | some str => jsParseFloat str })

/-- The shared loop shape of the extractors: walk the raw array, deriving
an entry per record and `Map.set`-ting it when the record qualifies. -/
def extractMapGo (entryFn : RawRecord → Option (String × EnrichEntry)) :
    EnrichMap → List RawRecord → EnrichMap
  | acc, [] => acc
  | acc, record :: rest =>
    match entryFn record with
    | some (k, v) => extractMapGo entryFn (mapSet acc k v) rest
    | none => extractMapGo entryFn acc rest

/-- `extractCreditRatingMap` from the transformers file. -/
def extractCreditRatingMap (rawArray : List RawRecord) : EnrichMap :=
  extractMapGo creditRatingEntry [] rawArray

/-- `extractInterestRateMap` from the transformers file. -/
def extractInterestRateMap (rawArray : List RawRecord) : EnrichMap :=
  extractMapGo interestRateEntry [] rawArray

/-- Is an enrichment value empty in the sense of the merge rule
(missing/undefined/null, or the empty string)? -/
def isEmptyField : Option String → Bool
  | none => true
  | some s => s = ""

/-- The subset of a canonical bond record that the two cited enrichment
passes touch, plus its primary key. -/
structure Bond where
  isin : String
  creditRating : Option String
  ratingAgency : Option String
  interestRateCategory : Option String
  couponRate : Option JsNumber
deriving DecidableEq

/-- Modelled from the spec: the merge/application step of the sync run is
part of the excluded one-shot seed script, not of the sources under
verification; the spec fixes its rule — a later field only overwrites a
prior non-empty value if the new value is itself non-empty, uniformly
across all enrichment passes. String fields count null/empty-string as
empty; the numeric field counts only a missing value as empty. -/
def mergeStrField (old new : Option String) : Option String :=
  if isEmptyField new then old else new

/-- Modelled from the spec: the numeric-field half of the merge rule. -/
def mergeRatField (old new : Option JsNumber) : Option JsNumber :=
  if new.isNone then old else new

/-- Modelled from the spec: apply one enrichment entry to one record. -/
def applyEntry (b : Bond) (e : EnrichEntry) : Bond :=
  { b with
    creditRating := mergeStrField b.creditRating e.creditRating,
    ratingAgency := mergeStrField b.ratingAgency e.ratingAgency,
    interestRateCategory := mergeStrField b.interestRateCategory e.interestRateCategory,
    couponRate := mergeRatField b.couponRate e.couponRate }

/-- Modelled from the spec: apply one enrichment map to one record by its
primary key (records without an entry pass through). -/
def applyMap (m : EnrichMap) (b : Bond) : Bond :=
  match List.lookup b.isin m with
  | some e => applyEntry b e
  | none => b

/-- Modelled from the spec: apply a sequence of enrichment passes in their
fixed order. -/
def applyPasses (passes : List EnrichMap) (b : Bond) : Bond :=
  passes.foldl (fun acc m => applyMap m acc) b

/-- The string-valued bond fields the enrichment passes can touch. -/
inductive BondStrField where
  | creditRating : BondStrField
  | ratingAgency : BondStrField
  | interestRateCategory : BondStrField
deriving DecidableEq

def bondStrField (b : Bond) : BondStrField → Option String
  | .creditRating => b.creditRating
  | .ratingAgency => b.ratingAgency
  | .interestRateCategory => b.interestRateCategory

def entryStrField (e : EnrichEntry) : BondStrField → Option String
  | .creditRating => e.creditRating
  | .ratingAgency => e.ratingAgency
  | .interestRateCategory => e.interestRateCategory

-- ─── Sample enrichment data ─────────────────────────────────────────────────

/-- A raw credit-rating-wise record and a raw interest-rate-wise record
(the latter with no rate-bucket field at all), for concrete evaluation. -/
def sampleRawCredit : RawRecord :=
  [("ISIN", some "ine123a07890"), ("creditRating", some "CRISIL AAA")]

def sampleRawInterest : RawRecord :=
  [("ISIN", some "ine123a07890"), ("rate", some "8.5")]

/-- A bond that already carries non-empty values in every enrichable field. -/
def sampleBond : Bond :=
  { isin := "INE123A07890", creditRating := some "AA+",
    ratingAgency := some "CRISIL", interestRateCategory := some "8-9",
    couponRate := some { mantissa := 8, scale := 0 } }

/-- An enrichment entry that carries nothing: an empty-string rating and
missing values elsewhere. -/
def sampleEmptyEntry : EnrichEntry :=
  { creditRating := some "", ratingAgency := none,
    interestRateCategory := none, couponRate := none }

-- ─── Theorems: rating normalizer ────────────────────────────────────────────

/-- C4: the grade rank function is strictly monotonic along the canonical
grade ladder — every consecutive pair of ladder grades, from AAA down
through D and then WITHDRAWN, has strictly increasing rank. -/
theorem gradeRank_strictMono_on_ladder :
    ∀ p ∈ canonicalLadder.zip canonicalLadder.tail,
      getRatingRank (some p.1) < getRatingRank (some p.2) := by
  decide

/-- Witness for C4 at the first consecutive ladder pair (AAA, AA+). -/
theorem gradeRank_strictMono_witness :
    getRatingRank (some "AAA") < getRatingRank (some "AA+") :=
  gradeRank_strictMono_on_ladder ("AAA", "AA+") (by decide)

/-- C5: `normalizeRating` is idempotent on canonical input — every grade of
the known grade ladder normalizes to itself. -/
theorem normalizeRating_idempotent_on_known_grades :
    ∀ g ∈ KNOWN_GRADES, normalizeRating g = some g := by
  decide

/-- Witness for C5 at the concrete grade AA+. -/
theorem normalizeRating_idempotent_witness :
    normalizeRating "AA+" = some "AA+" :=
  normalizeRating_idempotent_on_known_grades "AA+" (by decide)

/-- On rank-table keys the own-property lookup model agrees with the full
property-get model. -/
theorem getRatingRankFull_agrees_on_table (g : String) (n : Nat)
    (h : GRADE_RANK.lookup g = some n) :
    getRatingRankFull (some g) = RankResult.num (getRatingRank (some g)) := by
  simp [getRatingRankFull, getRatingRank, h]

/-- C7 counterexample: the JS lookup `GRADE_RANK[grade]` consults the
prototype chain. The string toString is not a key of the rank table, yet
the program returns the inherited `Object.prototype.toString` function for
it — not the Unrated rank 99 — so the claim that every unknown grade
string receives the worst defined rank is false of the program. -/
theorem getRatingRank_prototype_counterexample :
    GRADE_RANK.lookup "toString" = none ∧
    getRatingRankFull (some "toString") = RankResult.inherited "toString" ∧
    RankResult.inherited "toString" ≠ RankResult.num 99 :=
  ⟨by decide, by decide, by decide⟩

/-- C7 amended: the rank lookup never throws (it is a total function);
`null` and every grade string that is neither a rank-table key nor one of
the twelve `Object.prototype` property names receive rank 99 — exactly the
rank the table assigns to `Unrated` and the worst (largest) rank it
defines; but on the `Object.prototype` property names (toString,
constructor, `__proto__`, ...) the lookup hits the prototype chain and
returns the inherited function or object instead of 99. -/
theorem getRatingRank_total_amended :
    (∀ g : String, GRADE_RANK.lookup g = none →
        OBJECT_PROTOTYPE_KEYS.contains g = false →
        getRatingRankFull (some g) = RankResult.num 99) ∧
    getRatingRankFull none = RankResult.num 99 ∧
    GRADE_RANK.lookup "Unrated" = some 99 ∧
    (∀ p ∈ GRADE_RANK, p.2 ≤ 99) ∧
    (∀ g : String, GRADE_RANK.lookup g = none →
        OBJECT_PROTOTYPE_KEYS.contains g = true →
        getRatingRankFull (some g) = RankResult.inherited g) := by
  refine ⟨?_, rfl, by decide, by decide, ?_⟩
  · intro g h1 h2
    simp [getRatingRankFull, h1]
    simpa using h2
  · intro g h1 h2
    simp [getRatingRankFull, h1]
    simpa using h2

/-- Witness for the amended C7 theorem at the genuinely unknown grade
string XYZ and the prototype property name toString. -/
theorem getRatingRank_total_amended_witness :
    getRatingRankFull (some "XYZ") = RankResult.num 99 ∧
    getRatingRankFull (some "toString") = RankResult.inherited "toString" :=
  ⟨getRatingRank_total_amended.1 "XYZ" (by decide) (by decide),
   getRatingRank_total_amended.2.2.2.2 "toString" (by decide) (by decide)⟩

/-- C8: the four specified concrete normalization results hold. -/
theorem normalizeRating_concrete_results :
    normalizeRating "CRISILAAA/STABLE" = some "AAA" ∧
    normalizeRating "INDAA+CE" = some "AA+" ∧
    normalizeRating "BWR BBB+" = some "BBB+" ∧
    normalizeRating "" = none := by
  refine ⟨by decide, by decide, by decide, by decide⟩

-- ─── Theorems: parseDate ────────────────────────────────────────────────────

/-- C6 counterexample: the string 05-13-2021 matches the day-first pattern
but names no real date (month 13), and `parseDate` returns an Invalid Date
object for it — not `null`, as the claim requires for every unparseable
input. -/
theorem parseDate_unparseable_dmy_counterexample :
    parseDate "05-13-2021" = JSDateVal.invalidV ∧
    JSDateVal.invalidV ≠ JSDateVal.nullV :=
  ⟨by decide, by decide⟩

/-- C6 amended: `parseDate` accepts day-first forms (DD-MM-YYYY or
DD/MM/YYYY), disambiguated by the pattern of the string; an input that
does not match the day-first pattern goes through the ISO constructor, so
the ISO form (YYYY-MM-DD, and the other date-only productions) is accepted
and returns the parsed date; the function never throws (it is a total
function); an unparseable input that does not match the day-first pattern
yields `null`; but an input matching the day-first pattern whose
components are not a real calendar date yields an Invalid Date object
instead of `null`. -/
theorem parseDate_pattern_behavior :
    (∀ s d m y, matchDMY (jsTrim s) = some (d, m, y) →
        validCalendarDate y m d = true → parseDate s = JSDateVal.dateV y m d) ∧
    (∀ s y m d, matchDMY (jsTrim s) = none →
        jsDateParse (jsTrim s) = JSDateVal.dateV y m d →
        parseDate s = JSDateVal.dateV y m d) ∧
    (∀ s d m y, matchDMY (jsTrim s) = some (d, m, y) →
        validCalendarDate y m d = false → parseDate s = JSDateVal.invalidV) ∧
    (∀ s, matchDMY (jsTrim s) = none → jsDateParse (jsTrim s) = JSDateVal.invalidV →
        parseDate s = JSDateVal.nullV) := by
  have hempty : matchDMY (jsTrim "") = none := rfl
  have hpempty : jsDateParse (jsTrim "") = JSDateVal.invalidV := rfl
  refine ⟨?_, ?_, ?_, ?_⟩
  · intro s d m y hm hv
    by_cases hs : s = ""
    · rw [hs, hempty] at hm; exact Option.noConfusion hm
    · by_cases ht : jsTrim s = ""
      · rw [ht] at hm; exact Option.noConfusion hm
      · simp [parseDate, hs, ht, hm, jsDateFromYMD, hv]
  · intro s y m d hm hp
    by_cases hs : s = ""
    · rw [hs, hpempty] at hp; exact JSDateVal.noConfusion hp
    · by_cases ht : jsTrim s = ""
      · rw [ht] at hp
        rw [show jsDateParse "" = JSDateVal.invalidV from rfl] at hp
        exact JSDateVal.noConfusion hp
      · simp [parseDate, hs, ht, hm, hp]
  · intro s d m y hm hv
    by_cases hs : s = ""
    · rw [hs, hempty] at hm; exact Option.noConfusion hm
    · by_cases ht : jsTrim s = ""
      · rw [ht] at hm; exact Option.noConfusion hm
      · simp [parseDate, hs, ht, hm, jsDateFromYMD, hv]
  · intro s hm hp
    by_cases hs : s = ""
    · simp [parseDate, hs]
    · by_cases ht : jsTrim s = ""
      · simp [parseDate, hs, ht]
      · simp [parseDate, hs, ht, hm, hp]

/-- Witness for the amended C6 theorem: a valid day-first string, an ISO
string (which does not match the day-first pattern and parses through the
ISO constructor), a pattern-matching but impossible date, and plain
garbage. -/
theorem parseDate_pattern_behavior_witness :
    parseDate "05-03-2021" = JSDateVal.dateV 2021 3 5 ∧
    parseDate "2021-03-05" = JSDateVal.dateV 2021 3 5 ∧
    parseDate "15-13-2021" = JSDateVal.invalidV ∧
    parseDate "hello" = JSDateVal.nullV :=
  ⟨parseDate_pattern_behavior.1 "05-03-2021" 5 3 2021 (by decide) (by decide),
   parseDate_pattern_behavior.2.1 "2021-03-05" 2021 3 5 (by decide) (by decide),
   parseDate_pattern_behavior.2.2.1 "15-13-2021" 15 13 2021 (by decide) (by decide),
   parseDate_pattern_behavior.2.2.2 "hello" (by decide) (by decide)⟩

-- ─── Theorems: circuit breaker ──────────────────────────────────────────────

/-- Running a batch of calls distributes over append. -/
theorem runCalls_append (cb : CircuitBreaker) (L1 L2 : List CBCall) :
    runCalls cb (L1 ++ L2) = runCalls (runCalls cb L1) L2 := by
  induction L1 generalizing cb with
  | nil => rfl
  | cons c rest ih => simp [runCalls, ih]

/-- A CLOSED breaker admits every call, and while the accumulated failure
count stays below the threshold it remains CLOSED, with the failure counter
tracking exactly the number of failing calls; configuration is untouched. -/
theorem runCalls_closed_below_threshold (L : List CBCall) :
    ∀ cb : CircuitBreaker, cb.state = .CLOSED →
      cb.failures + countFails L < cb.failureThreshold →
      (runCalls cb L).state = .CLOSED ∧
      (runCalls cb L).failures = cb.failures + countFails L ∧
      (runCalls cb L).failureThreshold = cb.failureThreshold ∧
      (runCalls cb L).resetTimeout = cb.resetTimeout := by
  induction L with
  | nil =>
    intro cb hst hlt
    exact ⟨hst, by simp [runCalls, countFails], rfl, rfl⟩
  | cons c rest ih =>
    intro cb hst hlt
    by_cases hop : c.opSucceeds
    · have hcount : countFails (c :: rest) = countFails rest := by
        simp [countFails, hop]
      rw [hcount] at hlt ⊢
      have hstep : (cbExecute cb c.tAdmit c.tDone c.opSucceeds c.hasFallback).2 =
          { cb with successCount := cb.successCount + 1,
                    totalRequests := cb.totalRequests + 1 } := by
        simp [cbExecute, cbAdmit, cbOnSuccess, hst, hop]
      rw [runCalls, hstep]
      exact ih _ (by simp [hst]) (by simpa using hlt)
    · have hop2 : c.opSucceeds = false := by simpa using hop
      have hcount : countFails (c :: rest) = countFails rest + 1 := by
        simp [countFails, hop2, Nat.add_comm]
      rw [hcount] at hlt
      have hnotrip : ¬ cb.failureThreshold ≤ cb.failures + 1 := by omega
      have hstep : (cbExecute cb c.tAdmit c.tDone c.opSucceeds c.hasFallback).2 =
          { cb with failures := cb.failures + 1,
                    lastFailureTime := some c.tDone,
                    totalRequests := cb.totalRequests + 1 } := by
        simp [cbExecute, cbAdmit, cbOnFailure, hst, hop2, hnotrip]
      rw [runCalls, hstep]
      have hres := ih { cb with failures := cb.failures + 1,
                                lastFailureTime := some c.tDone,
                                totalRequests := cb.totalRequests + 1 }
        (by simp [hst]) (by simp; omega)
      simp at hres
      rw [hcount]
      refine ⟨hres.1, by omega, hres.2.2⟩

/-- A failing call on a CLOSED breaker whose incremented counter reaches the
threshold trips the breaker OPEN with a fresh retry time. -/
theorem cbExecute_trip (cb : CircuitBreaker) (t1 t2 : Nat) (fb : Bool)
    (hst : cb.state = .CLOSED)
    (hth : cb.failureThreshold ≤ cb.failures + 1) :
    ((cbExecute cb t1 t2 false fb).2).state = .OPEN ∧
    ((cbExecute cb t1 t2 false fb).2).nextRetryTime = some (t2 + cb.resetTimeout) ∧
    ((cbExecute cb t1 t2 false fb).2).failures = cb.failures + 1 := by
  cases fb <;> simp [cbExecute, cbAdmit, cbOnFailure, hst, hth]

/-- The effective failure threshold set by the constructor is positive. -/
theorem mkCircuitBreaker_threshold_pos (ft rt : Nat) :
    0 < (mkCircuitBreaker ft rt).failureThreshold := by
  simp only [mkCircuitBreaker]
  split <;> omega

/-- From a CLOSED breaker, a nonempty all-failure batch whose length brings
the counter exactly to the threshold leaves the breaker OPEN. -/
theorem runCalls_allFail_trips (L : List CBCall) :
    ∀ cb : CircuitBreaker, cb.state = .CLOSED →
      (∀ c ∈ L, c.opSucceeds = false) → L ≠ [] →
      cb.failures + L.length = cb.failureThreshold →
      (runCalls cb L).state = .OPEN := by
  induction L with
  | nil => intro cb _ _ hne _; exact absurd rfl hne
  | cons c rest ih =>
    intro cb hst hall hne hlen
    have hop : c.opSucceeds = false := hall c (by simp)
    match hrest : rest with
    | [] =>
      have hth : cb.failureThreshold ≤ cb.failures + 1 := by
        simp [hrest] at hlen; omega
      have := cbExecute_trip cb c.tAdmit c.tDone c.hasFallback hst hth
      rw [runCalls, hop]
      simpa [runCalls] using this.1
    | r0 :: rest0 =>
      have hnotrip : ¬ cb.failureThreshold ≤ cb.failures + 1 := by
        simp [hrest] at hlen; omega
      have hstep : (cbExecute cb c.tAdmit c.tDone c.opSucceeds c.hasFallback).2 =
          { cb with failures := cb.failures + 1,
                    lastFailureTime := some c.tDone,
                    totalRequests := cb.totalRequests + 1 } := by
        simp [cbExecute, cbAdmit, cbOnFailure, hst, hop, hnotrip]
      rw [runCalls, hstep]
      refine ih _ (by simp [hst]) (fun x hx => hall x (by simp [hrest, hx])) (by simp)
        (by simp [hrest] at hlen ⊢; omega)

/-- C2: the circuit breaker satisfies the specified state machine. A fresh
breaker is CLOSED; after `failureThreshold` consecutive recorded failures
the state is OPEN; a call made while OPEN strictly before `nextRetryTime`
is rejected with the distinguishable circuit-breaker error and the
operation is not invoked (the result ignores the operation outcome and
only the request counter changes); a call made at or after `nextRetryTime`
transitions the breaker to HALF_OPEN and is admitted; a HALF_OPEN success
transitions to CLOSED with the failure counter reset to 0; a HALF_OPEN
failure transitions back to OPEN with `nextRetryTime` set to the failure
time plus `resetTimeout`. -/
theorem circuitBreaker_state_machine :
    (∀ ft rt, (mkCircuitBreaker ft rt).state = .CLOSED) ∧
    (∀ ft rt (L : List CBCall), (∀ c ∈ L, c.opSucceeds = false) →
        L.length = (mkCircuitBreaker ft rt).failureThreshold →
        (runCalls (mkCircuitBreaker ft rt) L).state = .OPEN) ∧
    (∀ (cb : CircuitBreaker) (t1 t2 : Nat) (op : Bool), cb.state = .OPEN →
        t1 < cb.nextRetryTime.getD 0 →
        cbExecute cb t1 t2 op false =
          (.rejectedOpen, { cb with totalRequests := cb.totalRequests + 1 })) ∧
    (∀ (cb : CircuitBreaker) (t : Nat), cb.state = .OPEN →
        cb.nextRetryTime.getD 0 ≤ t →
        (cbAdmit cb t).2 = true ∧ (cbAdmit cb t).1.state = .HALF_OPEN) ∧
    (∀ (cb : CircuitBreaker) (t1 t2 : Nat) (fb : Bool), cb.state = .HALF_OPEN →
        ((cbExecute cb t1 t2 true fb).2).state = .CLOSED ∧
        ((cbExecute cb t1 t2 true fb).2).failures = 0) ∧
    (∀ (cb : CircuitBreaker) (t1 t2 : Nat) (fb : Bool), cb.state = .HALF_OPEN →
        ((cbExecute cb t1 t2 false fb).2).state = .OPEN ∧
        ((cbExecute cb t1 t2 false fb).2).nextRetryTime =
          some (t2 + cb.resetTimeout)) := by
  refine ⟨fun ft rt => rfl, ?_, ?_, ?_, ?_, ?_⟩
  · intro ft rt L hall hlen
    refine runCalls_allFail_trips L (mkCircuitBreaker ft rt) rfl hall ?_
      (by simp [mkCircuitBreaker, hlen])
    have := mkCircuitBreaker_threshold_pos ft rt
    intro hnil
    rw [hnil] at hlen
    simp at hlen
    omega
  · intro cb t1 t2 op hst hlt
    have hnle : ¬ cb.nextRetryTime.getD 0 ≤ t1 := by omega
    simp [cbExecute, cbAdmit, hst, hnle]
  · intro cb t hst hle
    simp [cbAdmit, hst, hle]
  · intro cb t1 t2 fb hst
    have hnopen : cb.state ≠ CBState.OPEN := by simp [hst]
    cases fb <;> simp [cbExecute, cbAdmit, cbOnSuccess, hst, hnopen]
  · intro cb t1 t2 fb hst
    have hnopen : cb.state ≠ CBState.OPEN := by simp [hst]
    cases fb <;> simp [cbExecute, cbAdmit, cbOnFailure, hst, hnopen]

/-- Witness for C2 at concrete breakers: a fresh breaker with threshold 2,
two consecutive failures, a rejected call at time 100 against retry time
1005, an admitted call at time 2000, and both HALF_OPEN trial outcomes. -/
theorem circuitBreaker_state_machine_witness :
    (mkCircuitBreaker 2 1000).state = .CLOSED ∧
    (runCalls (mkCircuitBreaker 2 1000) [sampleFailCall, sampleFailCall]).state = .OPEN ∧
    cbExecute sampleOpenCB 100 100 true false =
      (.rejectedOpen, { sampleOpenCB with totalRequests := 3 }) ∧
    ((cbAdmit sampleOpenCB 2000).2 = true ∧
      (cbAdmit sampleOpenCB 2000).1.state = .HALF_OPEN) ∧
    (((cbExecute sampleHalfOpenCB 7 8 true false).2).state = .CLOSED ∧
      ((cbExecute sampleHalfOpenCB 7 8 true false).2).failures = 0) ∧
    (((cbExecute sampleHalfOpenCB 7 8 false false).2).state = .OPEN ∧
      ((cbExecute sampleHalfOpenCB 7 8 false false).2).nextRetryTime = some 1008) :=
  ⟨circuitBreaker_state_machine.1 2 1000,
   circuitBreaker_state_machine.2.1 2 1000 [sampleFailCall, sampleFailCall]
     (by decide) (by decide),
   circuitBreaker_state_machine.2.2.1 sampleOpenCB 100 100 true (by decide) (by decide),
   circuitBreaker_state_machine.2.2.2.1 sampleOpenCB 2000 (by decide) (by decide),
   circuitBreaker_state_machine.2.2.2.2.1 sampleHalfOpenCB 7 8 false (by decide),
   circuitBreaker_state_machine.2.2.2.2.2 sampleHalfOpenCB 7 8 false (by decide)⟩

/-- C10: a successful call on a CLOSED breaker leaves the failure counter
unchanged (and the breaker CLOSED); from a fresh breaker, any call
sequence with fewer failures than the threshold — however many successes
are interleaved — leaves the breaker CLOSED with the counter equal to the
total number of failures; one further failure after the counter has
reached threshold minus one trips the breaker OPEN, even when the failures
were separated by arbitrarily many successes; and `reset()` is what clears
the counter back to 0 in the CLOSED state. -/
theorem circuitBreaker_counter_accumulates_across_successes :
    (∀ (cb : CircuitBreaker) (t1 t2 : Nat) (fb : Bool), cb.state = .CLOSED →
        ((cbExecute cb t1 t2 true fb).2).failures = cb.failures ∧
        ((cbExecute cb t1 t2 true fb).2).state = .CLOSED) ∧
    (∀ ft rt (L : List CBCall),
        countFails L < (mkCircuitBreaker ft rt).failureThreshold →
        (runCalls (mkCircuitBreaker ft rt) L).state = .CLOSED ∧
        (runCalls (mkCircuitBreaker ft rt) L).failures = countFails L) ∧
    (∀ ft rt (L : List CBCall) (c : CBCall),
        countFails L + 1 = (mkCircuitBreaker ft rt).failureThreshold →
        c.opSucceeds = false →
        (runCalls (mkCircuitBreaker ft rt) (L ++ [c])).state = .OPEN) ∧
    (∀ cb : CircuitBreaker,
        (cbReset cb).failures = 0 ∧ (cbReset cb).state = .CLOSED) := by
  refine ⟨?_, ?_, ?_, fun cb => ⟨rfl, rfl⟩⟩
  · intro cb t1 t2 fb hst
    have hnopen : cb.state ≠ CBState.OPEN := by simp [hst]
    have hnhalf : cb.state ≠ CBState.HALF_OPEN := by simp [hst]
    cases fb <;> simp [cbExecute, cbAdmit, cbOnSuccess, hst, hnopen, hnhalf]
  · intro ft rt L hlt
    have h := runCalls_closed_below_threshold L (mkCircuitBreaker ft rt) rfl
      (by simpa [mkCircuitBreaker] using hlt)
    refine ⟨h.1, ?_⟩
    rw [h.2.1]
    simp [mkCircuitBreaker]
  · intro ft rt L c hth hop
    rw [runCalls_append]
    have h := runCalls_closed_below_threshold L (mkCircuitBreaker ft rt) rfl
      (by simp [mkCircuitBreaker] at hth ⊢; omega)
    have htrip := cbExecute_trip (runCalls (mkCircuitBreaker ft rt) L)
      c.tAdmit c.tDone c.hasFallback h.1
      (by rw [h.2.2.1, h.2.1]; simp [mkCircuitBreaker] at hth ⊢; omega)
    rw [runCalls, hop]
    simpa [runCalls] using htrip.1

/-- Witness for C10: a fresh breaker with threshold 2, a success leaving
the counter alone, the interleaved batch success-failure-success staying
CLOSED at counter 1, the same batch plus one more failure tripping OPEN,
and a reset clearing the counter. -/
theorem circuitBreaker_counter_accumulates_witness :
    (((cbExecute (mkCircuitBreaker 2 1000) 0 0 true false).2).failures =
        (mkCircuitBreaker 2 1000).failures ∧
      ((cbExecute (mkCircuitBreaker 2 1000) 0 0 true false).2).state = .CLOSED) ∧
    ((runCalls (mkCircuitBreaker 2 1000)
        [sampleOkCall, sampleFailCall, sampleOkCall]).state = .CLOSED ∧
      (runCalls (mkCircuitBreaker 2 1000)
        [sampleOkCall, sampleFailCall, sampleOkCall]).failures = 1) ∧
    (runCalls (mkCircuitBreaker 2 1000)
        ([sampleOkCall, sampleFailCall, sampleOkCall] ++ [sampleFailCall])).state = .OPEN ∧
    ((cbReset sampleOpenCB).failures = 0 ∧ (cbReset sampleOpenCB).state = .CLOSED) :=
  ⟨circuitBreaker_counter_accumulates_across_successes.1
     (mkCircuitBreaker 2 1000) 0 0 false (by decide),
   by
     have h := circuitBreaker_counter_accumulates_across_successes.2.1 2 1000
       [sampleOkCall, sampleFailCall, sampleOkCall] (by decide)
     exact ⟨h.1, by rw [h.2]; decide⟩,
   circuitBreaker_counter_accumulates_across_successes.2.2.1 2 1000
     [sampleOkCall, sampleFailCall, sampleOkCall] sampleFailCall (by decide) (by decide),
   circuitBreaker_counter_accumulates_across_successes.2.2.2 sampleOpenCB⟩

-- ─── Theorems: resilient request loops ──────────────────────────────────────

/-- The number of refreshes attempted by the loop is bounded by the
refreshes already attempted plus the remaining iteration budget. -/
theorem requestGo_refresh_bound (att : Nat → AttemptOutcome) (ro : Nat → Bool) :
    ∀ (r i k : Nat) (last : AttemptOutcome),
      (requestGo att ro r i k last).2.2 ≤ k + r := by
  intro r
  induction r with
  | zero => intro i k last; simp [requestGo]
  | succ r ih =>
    intro i k last
    rw [requestGo]
    cases hatt : att i with
    | ok => simp
    | notFound => simp
    | forbidden =>
      by_cases hro : ro k = true
      · rw [if_pos hro]
        have := ih (i + 1) (k + 1) .forbidden
        show (requestGo att ro r (i + 1) (k + 1) .forbidden).2.2 ≤ k + (r + 1)
        omega
      · rw [if_neg hro]
        simp
    | otherErr =>
      have := ih (i + 1) k .otherErr
      show (requestGo att ro r (i + 1) k .otherErr).2.2 ≤ k + (r + 1)
      omega

/-- When every attempt sees a 403 and every refresh succeeds, the loop
spends its whole budget — one refresh per attempt — and then rethrows the
403 error. -/
theorem requestGo_all_forbidden (att : Nat → AttemptOutcome) (ro : Nat → Bool)
    (hatt : ∀ i, att i = .forbidden) (hro : ∀ k, ro k = true) :
    ∀ (r i k : Nat),
      requestGo att ro r i k .forbidden = (.thrown .forbidden, i + r, k + r) := by
  intro r
  induction r with
  | zero => intro i k; simp [requestGo]
  | succ r ih =>
    intro i k
    rw [requestGo, hatt i, hro k]
    rw [if_pos rfl, ih (i + 1) (k + 1),
        show i + 1 + r = i + (r + 1) from by omega,
        show k + 1 + r = k + (r + 1) from by omega]

/-- Attempts whose outcome is a retryable transport error only advance the
loop index: the loop state after skipping `n` such attempts is the same
loop at index `i + n`, for some value of the `lastError` slot. -/
theorem requestGo_skip_otherErr (att : Nat → AttemptOutcome) (ro : Nat → Bool) :
    ∀ (n r i k : Nat) (last : AttemptOutcome),
      (∀ j, j < n → att (i + j) = .otherErr) →
      ∃ last2, requestGo att ro (n + (r + 1)) i k last =
        requestGo att ro (r + 1) (i + n) k last2 := by
  intro n
  induction n with
  | zero => intro r i k last _; exact ⟨last, by simp⟩
  | succ n ih =>
    intro r i k last hother
    have h0 : att i = .otherErr := by simpa using hother 0 (Nat.succ_pos n)
    have harith : n + 1 + (r + 1) = n + (r + 1) + 1 := by omega
    obtain ⟨last2, h2⟩ := ih r (i + 1) k .otherErr (fun j hj => by
      have := hother (j + 1) (by omega)
      rw [show i + 1 + j = i + (j + 1) from by omega]
      exact this)
    refine ⟨last2, ?_⟩
    rw [harith, requestGo, h0]
    rw [h2, show i + 1 + n = i + (n + 1) from by omega]

/-- C1 counterexample: with the repository's configuration of
`maxRetries = 3`, a run in which every attempt is answered 403 and every
cookie refresh succeeds performs FOUR refreshes — not exactly one — with
the attempt index advancing each time (the `continue` runs the loop
update), and ends by rethrowing the 403 error rather than succeeding or
failing with the session-expired error. -/
theorem request_session_refresh_counterexample :
    (runRequest 3 (fun _ => AttemptOutcome.forbidden) (fun _ => true)).2.2 = 4 ∧
    (runRequest 3 (fun _ => AttemptOutcome.forbidden) (fun _ => true)).2.1 = 4 ∧
    (runRequest 3 (fun _ => AttemptOutcome.forbidden) (fun _ => true)).1 =
      ReqOutcome.thrown AttemptOutcome.forbidden := by
  decide

/-- C1 amended: every 403/session-expired-shaped response triggers a
session-cookie refresh; when the refresh succeeds the endpoint is retried
at the NEXT attempt index — consuming the retry budget — rather than at
the same index; when the refresh fails the whole operation fails at once
with the `NSDL_SESSION_EXPIRED` error and no further attempts are made; at
most `maxRetries + 1` refreshes occur in one operation; and when every
attempt is answered 403 while every refresh succeeds, the budget runs out
and the last 403 error is rethrown (not a session-expired error). -/
theorem request_session_refresh_behavior :
    (∀ (att : Nat → AttemptOutcome) (ro : Nat → Bool) (r i k : Nat)
        (last : AttemptOutcome), att i = .forbidden → ro k = true →
        requestGo att ro (r + 1) i k last =
          requestGo att ro r (i + 1) (k + 1) .forbidden) ∧
    (∀ (att : Nat → AttemptOutcome) (ro : Nat → Bool) (r i k : Nat)
        (last : AttemptOutcome), att i = .forbidden → ro k = false →
        requestGo att ro (r + 1) i k last = (.sessionExpired, i + 1, k + 1)) ∧
    (∀ (att : Nat → AttemptOutcome) (ro : Nat → Bool) (mr : Nat),
        (runRequest mr att ro).2.2 ≤ mr + 1) ∧
    (∀ (att : Nat → AttemptOutcome) (ro : Nat → Bool) (mr : Nat),
        (∀ i, att i = .forbidden) → (∀ k, ro k = true) →
        runRequest mr att ro = (.thrown .forbidden, mr + 1, mr + 1)) := by
  refine ⟨?_, ?_, ?_, ?_⟩
  · intro att ro r i k last h1 h2
    rw [requestGo, h1, h2, if_pos rfl]
  · intro att ro r i k last h1 h2
    rw [requestGo, h1, h2]
    simp
  · intro att ro mr
    simpa using requestGo_refresh_bound att ro (mr + 1) 0 0 .otherErr
  · intro att ro mr hatt hro
    rw [runRequest, requestGo, hatt 0, hro 0, if_pos rfl,
        requestGo_all_forbidden att ro hatt hro mr 1 1,
        show 1 + mr = mr + 1 from by omega]

/-- Witness for the amended C1 theorem at concrete oracles: a 403 with a
succeeding refresh steps to the next attempt index; a 403 with a failing
refresh is the session-expired failure; the refresh count of a
`maxRetries = 3` run is at most 4; the all-403 run spends 4 attempts and
4 refreshes and rethrows the 403. -/
theorem request_session_refresh_behavior_witness :
    requestGo (fun _ => AttemptOutcome.forbidden) (fun _ => true) 3 0 0 .otherErr =
      requestGo (fun _ => AttemptOutcome.forbidden) (fun _ => true) 2 1 1 .forbidden ∧
    requestGo (fun _ => AttemptOutcome.forbidden) (fun _ => false) 1 0 0 .otherErr =
      (.sessionExpired, 1, 1) ∧
    (runRequest 3 (fun _ => AttemptOutcome.forbidden) (fun _ => true)).2.2 ≤ 4 ∧
    runRequest 3 (fun _ => AttemptOutcome.forbidden) (fun _ => true) =
      (.thrown .forbidden, 4, 4) :=
  ⟨request_session_refresh_behavior.1 (fun _ => .forbidden) (fun _ => true)
     2 0 0 .otherErr rfl rfl,
   request_session_refresh_behavior.2.1 (fun _ => .forbidden) (fun _ => false)
     0 0 0 .otherErr rfl rfl,
   request_session_refresh_behavior.2.2.1 (fun _ => .forbidden) (fun _ => true) 3,
   request_session_refresh_behavior.2.2.2 (fun _ => .forbidden) (fun _ => true) 3
     (fun _ => rfl) (fun _ => rfl)⟩

/-- C9: in both retry loops, a 404 response never triggers a retry and the
operation returns at once with the empty result. In `_request`: from any
reachable loop state with budget left, a 404 ends the loop immediately
with the empty array, spending only that one attempt and no refresh; in
particular a run whose first `i` attempts were retryable errors and whose
attempt `i` is a 404 returns empty after exactly `i + 1` physical
attempts. In `_requestWithRetry`: a 404 returns the `null` empty result
immediately (the public methods coerce it to an empty list). -/
theorem request_notFound_returns_empty_without_retry :
    (∀ (att : Nat → AttemptOutcome) (ro : Nat → Bool) (r i k : Nat)
        (last : AttemptOutcome), att i = .notFound →
        requestGo att ro (r + 1) i k last = (.emptyResult, i + 1, k)) ∧
    (∀ (att : Nat → AttemptOutcome) (ro : Nat → Bool) (mr i : Nat),
        i ≤ mr → (∀ j, j < i → att j = .otherErr) → att i = .notFound →
        runRequest mr att ro = (.emptyResult, i + 1, 0)) ∧
    (∀ (att : Nat → AttemptOutcome) (r i : Nat) (last : AttemptOutcome),
        att i = .notFound →
        requestWithRetryGo att (r + 1) i last = (.nullResult, i + 1)) ∧
    (∀ (att : Nat → AttemptOutcome) (mr : Nat), att 0 = .notFound →
        runRequestWithRetry mr att = (.nullResult, 1)) := by
  refine ⟨?_, ?_, ?_, ?_⟩
  · intro att ro r i k last h
    rw [requestGo, h]
  · intro att ro mr i hle hother hnf
    rw [runRequest, show mr + 1 = i + ((mr - i) + 1) from by omega]
    obtain ⟨last2, h2⟩ := requestGo_skip_otherErr att ro i (mr - i) 0 0 .otherErr
      (fun j hj => by simpa using hother j hj)
    rw [h2, requestGo, show att (0 + i) = .notFound from by simpa using hnf]
    simp
  · intro att r i last h
    rw [requestWithRetryGo, h]
  · intro att mr h
    rw [runRequestWithRetry, requestWithRetryGo, h]

/-- Witness for C9: an immediate 404, a 404 on the third attempt after two
transport errors, and the second client hitting a 404 at once. -/
theorem request_notFound_witness :
    requestGo (fun _ => AttemptOutcome.notFound) (fun _ => true) 4 0 0 .otherErr =
      (.emptyResult, 1, 0) ∧
    runRequest 3 (fun i => if i < 2 then AttemptOutcome.otherErr else AttemptOutcome.notFound)
      (fun _ => true) = (.emptyResult, 3, 0) ∧
    requestWithRetryGo (fun _ => AttemptOutcome.notFound) 4 0 .otherErr =
      (.nullResult, 1) ∧
    runRequestWithRetry 3 (fun _ => AttemptOutcome.notFound) = (.nullResult, 1) :=
  ⟨request_notFound_returns_empty_without_retry.1 (fun _ => .notFound) (fun _ => true)
     3 0 0 .otherErr rfl,
   request_notFound_returns_empty_without_retry.2.1
     (fun i => if i < 2 then AttemptOutcome.otherErr else AttemptOutcome.notFound)
     (fun _ => true) 3 2 (by omega) (fun j hj => by simp [hj]) (by decide),
   request_notFound_returns_empty_without_retry.2.2.1 (fun _ => .notFound)
     3 0 .otherErr rfl,
   request_notFound_returns_empty_without_retry.2.2.2 (fun _ => .notFound) 3 rfl⟩

-- ─── Theorems: enrichment extractors and merge ──────────────────────────────

/-- Applying an enrichment map never changes the primary key. -/
theorem applyMap_isin (m : EnrichMap) (b : Bond) : (applyMap m b).isin = b.isin := by
  unfold applyMap
  cases List.lookup b.isin m <;> rfl

/-- An entry whose value for a string field is empty leaves that field of
the record unchanged (whatever the record held). -/
theorem applyEntry_str_preserve (b : Bond) (e : EnrichEntry) (f : BondStrField)
    (h : isEmptyField (entryStrField e f) = true) :
    bondStrField (applyEntry b e) f = bondStrField b f := by
  cases f <;>
    simp_all [applyEntry, mergeStrField, bondStrField, entryStrField]

/-- Same, lifted to the application of a whole map to a record. -/
theorem applyMap_str_preserve (m : EnrichMap) (b : Bond) (f : BondStrField)
    (h : ∀ e, List.lookup b.isin m = some e → isEmptyField (entryStrField e f) = true) :
    bondStrField (applyMap m b) f = bondStrField b f := by
  unfold applyMap
  cases hl : List.lookup b.isin m with
  | none => rfl
  | some e => exact applyEntry_str_preserve b e f (h e hl)

/-- `Map.set` preserves a property that holds of all existing bindings and
of the new binding. -/
theorem mapSet_forall (P : String × EnrichEntry → Prop) (m : EnrichMap)
    (k : String) (v : EnrichEntry)
    (hm : ∀ q ∈ m, P q) (hkv : P (k, v)) :
    ∀ q ∈ mapSet m k v, P q := by
  intro q hq
  unfold mapSet at hq
  by_cases hs : (List.lookup k m).isSome
  · rw [if_pos hs] at hq
    obtain ⟨p, hp, hpq⟩ := List.mem_map.mp hq
    by_cases hk : p.1 = k
    · rw [if_pos hk] at hpq; rw [← hpq]; exact hkv
    · rw [if_neg hk] at hpq; rw [← hpq]; exact hm p hp
  · rw [if_neg hs] at hq
    rcases List.mem_append.mp hq with h1 | h2
    · exact hm q h1
    · rw [List.mem_singleton.mp h2]; exact hkv

/-- Every binding of an extracted map satisfies any property enjoyed by
every entry the record-level extractor can produce. -/
theorem extractMapGo_forall (entryFn : RawRecord → Option (String × EnrichEntry))
    (P : String × EnrichEntry → Prop)
    (hfn : ∀ record k v, entryFn record = some (k, v) → P (k, v)) :
    ∀ (list : List RawRecord) (acc : EnrichMap), (∀ q ∈ acc, P q) →
      ∀ q ∈ extractMapGo entryFn acc list, P q := by
  intro list
  induction list with
  | nil => intro acc hacc q hq; exact hacc q hq
  | cons record rest ih =>
    intro acc hacc q hq
    rw [extractMapGo] at hq
    cases hfe : entryFn record with
    | none => rw [hfe] at hq; exact ih acc hacc q hq
    | some kv =>
      rw [hfe] at hq
      exact ih (mapSet acc kv.1 kv.2)
        (mapSet_forall P acc kv.1 kv.2 hacc (hfn record kv.1 kv.2 (by rw [hfe]))) q hq

/-- The transformers-file rating cleanup never returns the empty string. -/
theorem normalizeRatingT_ne_empty (v : Option String) (rv : String)
    (h : normalizeRatingT v = some rv) : (rv = "") = False := by
  unfold normalizeRatingT at h
  by_cases he : jsTrim (jsToUpper (removeParens (removeWs (v.getD "")))) = ""
  · rw [if_pos he] at h; exact Option.noConfusion h
  · rw [if_neg he] at h
    simp only [eq_iff_iff, iff_false]
    intro hrv
    exact he ((Option.some.inj h).trans hrv)

/-- C3: the enrichment merge is non-destructive. For every record and every
field: an entry whose value for that field is empty or missing leaves the
record's existing non-empty value unchanged — per entry, and uniformly
across any sequence of enrichment passes; and the maps the two cited
extractors build can indeed carry empty fields (a credit-rating entry
never carries interest-rate data, and vice versa) while an extracted
credit rating itself is never empty. The application step lives in the
seed script outside these sources and is modelled from the spec's
non-destructive-overwrite rule. -/
theorem enrichment_merge_non_destructive :
    (∀ (b : Bond) (e : EnrichEntry) (f : BondStrField),
        isEmptyField (entryStrField e f) = true →
        isEmptyField (bondStrField b f) = false →
        bondStrField (applyEntry b e) f = bondStrField b f) ∧
    (∀ (b : Bond) (e : EnrichEntry),
        e.couponRate = none → b.couponRate.isSome = true →
        (applyEntry b e).couponRate = b.couponRate) ∧
    (∀ (f : BondStrField) (passes : List EnrichMap) (b : Bond),
        (∀ m ∈ passes, ∀ e, List.lookup b.isin m = some e →
            isEmptyField (entryStrField e f) = true) →
        isEmptyField (bondStrField b f) = false →
        bondStrField (applyPasses passes b) f = bondStrField b f) ∧
    (∀ (rawArray : List RawRecord) (p : String × EnrichEntry),
        p ∈ extractCreditRatingMap rawArray →
        isEmptyField p.2.creditRating = false ∧
        p.2.interestRateCategory = none ∧ p.2.couponRate = none) ∧
    (∀ (rawArray : List RawRecord) (p : String × EnrichEntry),
        p ∈ extractInterestRateMap rawArray →
        p.2.creditRating = none ∧ p.2.ratingAgency = none) := by
  refine ⟨fun b e f h _ => applyEntry_str_preserve b e f h, ?_, ?_, ?_, ?_⟩
  · intro b e h _
    simp [applyEntry, mergeRatField, h]
  · intro f passes
    induction passes with
    | nil => intro b _ _; rfl
    | cons m rest ih =>
      intro b hpass hne
      have hstep := applyMap_str_preserve m b f (hpass m (by simp))
      have hisin := applyMap_isin m b
      rw [show applyPasses (m :: rest) b = applyPasses rest (applyMap m b) from rfl,
          ih (applyMap m b)
            (fun m2 hm2 e he => hpass m2 (by simp [hm2]) e (by rwa [hisin] at he))
            (by rwa [hstep]),
          hstep]
  · intro rawArray p hp
    refine extractMapGo_forall creditRatingEntry
      (fun q => isEmptyField q.2.creditRating = false ∧
        q.2.interestRateCategory = none ∧ q.2.couponRate = none)
      ?_ rawArray [] (by simp) p hp
    intro record k v hkv
    simp only [creditRatingEntry] at hkv
    by_cases hi : jsToUpper ((pick record ["isin", "ISIN"]).getD "") = ""
    · rw [if_pos hi] at hkv; exact Option.noConfusion hkv
    · rw [if_neg hi] at hkv
      cases hr : normalizeRatingT (pick record ["creditRating", "rating", "credit_rating"]) with
      | none => rw [hr] at hkv; exact Option.noConfusion hkv
      | some rv =>
        rw [hr] at hkv
        injection hkv with hkv2
        cases (congrArg Prod.snd hkv2)
        exact ⟨by simp [isEmptyField, normalizeRatingT_ne_empty _ rv hr], rfl, rfl⟩
  · intro rawArray p hp
    refine extractMapGo_forall interestRateEntry
      (fun q => q.2.creditRating = none ∧ q.2.ratingAgency = none)
      ?_ rawArray [] (by simp) p hp
    intro record k v hkv
    simp only [interestRateEntry] at hkv
    by_cases hi : jsToUpper ((pick record ["isin", "ISIN"]).getD "") = ""
    · rw [if_pos hi] at hkv; exact Option.noConfusion hkv
    · rw [if_neg hi] at hkv
      injection hkv with hkv2
      cases (congrArg Prod.snd hkv2)
      exact ⟨rfl, rfl⟩

/-- Witness for C3 at concrete data: an all-empty entry leaves the rating
and coupon of a fully-populated bond alone; an interest-rate pass built by
the source extractor from a record with no bucket field leaves the bond's
existing bucket alone; and the two extractors yield exactly the entry
shapes the theorem describes on concrete records. -/
theorem enrichment_merge_non_destructive_witness :
    bondStrField (applyEntry sampleBond sampleEmptyEntry) .creditRating =
      bondStrField sampleBond .creditRating ∧
    (applyEntry sampleBond sampleEmptyEntry).couponRate = sampleBond.couponRate ∧
    bondStrField (applyPasses [extractInterestRateMap [sampleRawInterest]] sampleBond)
      .interestRateCategory = bondStrField sampleBond .interestRateCategory ∧
    (isEmptyField (("INE123A07890",
        ({ creditRating := some "CRISILAAA", ratingAgency := none,
           interestRateCategory := none, couponRate := none } : EnrichEntry)) :
        String × EnrichEntry).2.creditRating = false ∧
      (("INE123A07890",
        ({ creditRating := some "CRISILAAA", ratingAgency := none,
           interestRateCategory := none, couponRate := none } : EnrichEntry)) :
        String × EnrichEntry).2.interestRateCategory = none ∧
      (("INE123A07890",
        ({ creditRating := some "CRISILAAA", ratingAgency := none,
           interestRateCategory := none, couponRate := none } : EnrichEntry)) :
        String × EnrichEntry).2.couponRate = none) ∧
    ((("INE123A07890",
        ({ creditRating := none, ratingAgency := none, interestRateCategory := none,
           couponRate := some { mantissa := 85, scale := 1 } } : EnrichEntry)) :
        String × EnrichEntry).2.creditRating = none ∧
      (("INE123A07890",
        ({ creditRating := none, ratingAgency := none, interestRateCategory := none,
           couponRate := some { mantissa := 85, scale := 1 } } : EnrichEntry)) :
        String × EnrichEntry).2.ratingAgency = none) :=
  ⟨enrichment_merge_non_destructive.1 sampleBond sampleEmptyEntry .creditRating
     (by decide) (by decide),
   enrichment_merge_non_destructive.2.1 sampleBond sampleEmptyEntry rfl rfl,
   enrichment_merge_non_destructive.2.2.1 .interestRateCategory
     [extractInterestRateMap [sampleRawInterest]] sampleBond
     (fun m hm e he => by
       rw [List.mem_singleton] at hm
       subst hm
       rw [show List.lookup sampleBond.isin (extractInterestRateMap [sampleRawInterest]) =
           some { creditRating := none, ratingAgency := none,
                  interestRateCategory := none,
                  couponRate := some { mantissa := 85, scale := 1 } } from by decide] at he
       cases Option.some.inj he
       decide)
     (by decide),
   enrichment_merge_non_destructive.2.2.2.1 [sampleRawCredit] _ (by decide),
   enrichment_merge_non_destructive.2.2.2.2 [sampleRawInterest] _ (by decide)⟩
